import Mathlib

/-!
PStream — verification of the playlist synthesizer, the manifest resolver
and the batch runner.

Shallow embedding of the PStream repository (src/generate.py, src/utils.py,
src/eurostartv_plugin.py).  Python dictionaries/objects are modelled as
structures with `Option` fields; Python truthiness (`if x:`) is translated
explicitly at each use site (`None`/`0`/`""`/`[]` are falsy); Python strings
are Lean `String`s and regex searches are translated into explicit
left-to-right scanners over `List Char`.
-/

namespace PStream

/-! ## Data model

Shapes of the streamlink objects consumed by the playlist builders:
`stream_info.resolution` is a (width, height) pair, `stream_info` carries
`program_id`, `bandwidth`, `codecs`, `resolution`, `video`; a playlist entry
has a `stream_info` and a `uri`; the multivariant playlist has an optional
`version` and the list of entries; `streams` is the dict returned by
streamlink, of which only the `"best"` entry is read. -/

structure Resolution where
  width : Nat
  height : Nat
  deriving Repr, DecidableEq

structure StreamInfo where
  program_id : Option Nat
  bandwidth : Option Nat
  codecs : List String
  resolution : Option Resolution
  video : Option String
  deriving Repr, DecidableEq

structure Playlist where
  stream_info : Option StreamInfo
  uri : String
  deriving Repr, DecidableEq

structure Multivariant where
  version : Option Nat
  playlists : List Playlist
  deriving Repr, DecidableEq

structure HlsStream where
  multivariant : Option Multivariant
  deriving Repr, DecidableEq

/-- The `streams` dict; only the lookup `streams.get("best")` is modelled. -/
structure StreamsDict where
  best : Option HlsStream
  deriving Repr, DecidableEq

/-- A `streams` dict whose `"best"` entry carries the given multivariant. -/
def streamsOf (mv : Multivariant) : StreamsDict :=
  ⟨some ⟨some mv⟩⟩

/-! ## Rendering one `#EXT-X-STREAM-INF` block

Here `joinComma` translates the Python join of a list of strings with a
comma separator. -/

def joinComma : List String → String
  | [] => ""
  | [a] => a
  | a :: rest => a ++ "," ++ joinComma rest

/-- Translation of `info_to_text(stream_info, url)` from src/generate.py
(lines 8-26).
Truthiness of `program_id`/`bandwidth` is nonzero-ness, of `codecs`
non-emptiness; the RESOLUTION attribute is guarded by
`stream_info.resolution and stream_info.resolution.width` only — the
height is not checked (a namedtuple is always truthy). -/
def info_to_text (stream_info : StreamInfo) (url : String) : String :=
  let text := "#EXT-X-STREAM-INF:"
  let text :=
    match stream_info.program_id with
    | some p => if p ≠ 0 then text ++ ("PROGRAM-ID=" ++ toString p ++ ",") else text
    | none => text
  let text :=
    match stream_info.bandwidth with
    | some bw => if bw ≠ 0 then text ++ ("BANDWIDTH=" ++ toString bw ++ ",") else text
    | none => text
  let text :=
    match stream_info.codecs with
    | [] => text
    | c :: cs => text ++ ("CODECS=\"" ++ joinComma (c :: cs) ++ "\",")
  let text :=
    match stream_info.resolution with
    | some r =>
        if r.width ≠ 0 then
          text ++ ("RESOLUTION=" ++ toString r.width ++ "x" ++ toString r.height)
        else text
    | none => text
  text ++ "\n" ++ url ++ "\n"

/-- Translation of `stream_info_to_extinf(stream_info, url)` from
src/utils.py (lines 78-100).
Identical to `info_to_text` except that the RESOLUTION guard checks
`res and getattr(res, "width", None) and getattr(res, "height", None)` —
both coordinates must be nonzero. -/
def stream_info_to_extinf (stream_info : StreamInfo) (url : String) : String :=
  let text := "#EXT-X-STREAM-INF:"
  let text :=
    match stream_info.program_id with
    | some p => if p ≠ 0 then text ++ ("PROGRAM-ID=" ++ toString p ++ ",") else text
    | none => text
  let text :=
    match stream_info.bandwidth with
    | some bw => if bw ≠ 0 then text ++ ("BANDWIDTH=" ++ toString bw ++ ",") else text
    | none => text
  let text :=
    match stream_info.codecs with
    | [] => text
    | c :: cs => text ++ ("CODECS=\"" ++ joinComma (c :: cs) ++ "\",")
  let text :=
    match stream_info.resolution with
    | some r =>
        if r.width ≠ 0 ∧ r.height ≠ 0 then
          text ++ ("RESOLUTION=" ++ toString r.width ++ "x" ++ toString r.height)
        else text
    | none => text
  text ++ "\n" ++ url ++ "\n"

/-! ## `build_playlists` (src/generate.py, lines 44-88) -/

/-- The loop body of `build_playlists`: a single forward pass that prepends
the current block to the master text whenever the current height exceeds the
height seen on the *previous* kept iteration (`previous_res_height` is
overwritten with the current height each time, it is not a running max). -/
def bp_loop : List Playlist → Nat → String → String → String × String
  | [], _, master_text, best_text => (master_text, best_text)
  | p :: ps, previous_res_height, master_text, best_text =>
    match p.stream_info with
    | none => bp_loop ps previous_res_height master_text best_text
    | some info =>
      if info.video = some "audio_only" then
        bp_loop ps previous_res_height master_text best_text
      else
        let sub_text := info_to_text info p.uri
        let height := match info.resolution with
          | some r => r.height
          | none => 0
        if previous_res_height < height then
          bp_loop ps height (sub_text ++ master_text) sub_text
        else
          bp_loop ps height (master_text ++ sub_text) best_text

/-- Prefixing of `#EXT-X-VERSION:<v>` when `mv.version` is truthy, shared by
both builders. -/
def addVersion (version : Option Nat) (master_text best_text : String) : String × String :=
  match version with
  | some v =>
      if v ≠ 0 then
        ("#EXT-X-VERSION:" ++ toString v ++ "\n" ++ master_text,
         "#EXT-X-VERSION:" ++ toString v ++ "\n" ++ best_text)
      else (master_text, best_text)
  | none => (master_text, best_text)

/-- Translation of `build_playlists(streams)` from src/generate.py. -/
def build_playlists (streams : StreamsDict) : Option String × Option String :=
  match streams.best with
  | none => (none, none)
  | some best_stream =>
    match best_stream.multivariant with
    | none => (none, none)
    | some mv =>
      match mv.playlists with
      | [] => (none, none)
      | _ :: _ =>
        let (master_text, best_text) := bp_loop mv.playlists 0 "" ""
        if master_text = "" then (none, none)
        else
          let (master_text, best_text) := addVersion mv.version master_text best_text
          (some ("#EXTM3U\n" ++ master_text), some ("#EXTM3U\n" ++ best_text))

/-! ## `build_master_and_best` (src/utils.py, lines 103-153) -/

/-- Translation of `height_of(pl)` from src/utils.py: the sort key, 0 when `stream_info`
or `resolution` is missing. -/
def height_of (p : Playlist) : Nat :=
  match p.stream_info with
  | none => 0
  | some info =>
    match info.resolution with
    | some r => r.height
    | none => 0

/-- The comparison realised by `sorted(mv.playlists, key=height_of,
reverse=True)`: `a` may precede `b` when `height_of b ≤ height_of a`. -/
def heightGe (a b : Playlist) : Prop := height_of b ≤ height_of a

instance : DecidableRel heightGe := fun a b => Nat.decLe _ _

/-- Stable descending sort by height: the translation of the Python call
`sorted(mv.playlists, key=height_of, reverse=True)`.  Insertion sort with
`heightGe` places each element before the first strictly-smaller one,
which is exactly the unique stable descending order that a stable sort
with this key produces. -/
def sortPlaylists (l : List Playlist) : List Playlist :=
  l.insertionSort heightGe

/-- A playlist entry survives the filter of the builders: its `stream_info`
is present and not flagged `audio_only`. -/
def surviving (p : Playlist) : Bool :=
  match p.stream_info with
  | none => false
  | some info => if info.video = some "audio_only" then false else true

/-- The block a surviving entry contributes (via `stream_info_to_extinf`). -/
def renderP (p : Playlist) : String :=
  match p.stream_info with
  | none => ""
  | some info => stream_info_to_extinf info p.uri

/-- The loop of `build_master_and_best`: `enumerate` over the *sorted* list;
the best text is set only at index 0 (and hence stays `""` whenever the
sorted-first entry is skipped). -/
def mb_loop : List Playlist → Nat → String → String → String × String
  | [], _, master_text, best_text => (master_text, best_text)
  | p :: ps, i, master_text, best_text =>
    match p.stream_info with
    | none => mb_loop ps (i + 1) master_text best_text
    | some info =>
      if info.video = some "audio_only" then
        mb_loop ps (i + 1) master_text best_text
      else
        let sub := stream_info_to_extinf info p.uri
        mb_loop ps (i + 1) (master_text ++ sub) (if i = 0 then sub else best_text)

/-- Translation of `build_master_and_best(streams)` from src/utils.py. -/
def build_master_and_best (streams : StreamsDict) : Option String × Option String :=
  match streams.best with
  | none => (none, none)
  | some best_stream =>
    match best_stream.multivariant with
    | none => (none, none)
    | some mv =>
      match mv.playlists with
      | [] => (none, none)
      | _ :: _ =>
        let playlists := sortPlaylists mv.playlists
        let (master_text, best_text) := mb_loop playlists 0 "" ""
        if master_text = "" ∨ best_text = "" then (none, none)
        else
          let (master_text, best_text) := addVersion mv.version master_text best_text
          (some ("#EXTM3U\n" ++ master_text), some ("#EXTM3U\n" ++ best_text))

/-- The header both documents receive once non-empty: `#EXTM3U`, then the
version line when `version` is truthy. -/
def headerOf (mv : Multivariant) : String :=
  "#EXTM3U\n" ++
    (match mv.version with
     | some v => if v ≠ 0 then "#EXT-X-VERSION:" ++ toString v ++ "\n" else ""
     | none => "")

/-- Concatenation of a list of rendered blocks. -/
def strJoin : List String → String
  | [] => ""
  | s :: rest => s ++ strJoin rest

/-! ## Concrete inputs used by counterexamples and witnesses -/

/-- A video variant: bandwidth `bw`, resolution `w`×`h`. -/
def vinfo (h w bw : Nat) : StreamInfo := ⟨none, some bw, [], some ⟨w, h⟩, some "video"⟩

/-- An audio-only variant: bandwidth `bw`, resolution `w`×`h`. -/
def ainfo (h w bw : Nat) : StreamInfo := ⟨none, some bw, [], some ⟨w, h⟩, some "audio_only"⟩

/-- Heights 720, 360, 480 in source order: non-monotonic, so the one-pass
builder and the sorting builder disagree. -/
def mvNonMono : Multivariant :=
  ⟨some 3, [⟨some (vinfo 720 1280 2000), "u720"⟩, ⟨some (vinfo 360 640 500), "u360"⟩,
            ⟨some (vinfo 480 854 900), "u480"⟩]⟩

/-- A variant set whose maximum-height variant is audio-only while a lower
non-audio variant exists. -/
def mvAudioTop : Multivariant :=
  ⟨none, [⟨some (ainfo 1080 1920 3000), "ua"⟩, ⟨some (vinfo 720 1280 2000), "uv"⟩]⟩

/-- Same shape as `mvAudioTop` with different data (for claim C2). -/
def mvAudioTop2 : Multivariant :=
  ⟨some 4, [⟨some (ainfo 2160 3840 9000), "qa"⟩, ⟨some (vinfo 1440 2560 6000), "qv"⟩]⟩

/-- The concrete triple from the spec: heights 1080, 720 and an
audio-only 480. -/
def mvTriple : Multivariant :=
  ⟨some 3, [⟨some (vinfo 1080 1920 5000), "u1080"⟩, ⟨some (vinfo 720 1280 2000), "u720"⟩,
            ⟨some (ainfo 480 854 600), "u480"⟩]⟩

/-- Two video variants given in ascending height order (witness input). -/
def mvTwoAsc : Multivariant :=
  ⟨some 3, [⟨some (vinfo 720 1280 2000), "w720"⟩, ⟨some (vinfo 1080 1920 5000), "w1080"⟩]⟩

/-- A single audio-only variant (witness input for claim C5). -/
def mvAllAudio : Multivariant :=
  ⟨some 7, [⟨some (ainfo 480 854 600), "a1"⟩, ⟨some (ainfo 360 640 300), "a2"⟩]⟩

/-! ## Spec-worded attribute rendering (for the refinement claim C4) -/

/-- Substring test: the Python `in` operator (case-sensitive). -/
def listContains (hay pat : List Char) : Bool :=
  pat.isPrefixOf hay ||
    match hay with
    | [] => false
    | _ :: t => listContains t pat

/-- Substring test on strings. -/
def strContains (hay pat : String) : Bool := listContains hay.data pat.data

/-- The attribute strings whose presence rules hold, in the listed order,
with the RESOLUTION rule of `stream_info_to_extinf`: both coordinates
positive. -/
def presentAttrsUtils (si : StreamInfo) : List String :=
  (match si.program_id with
   | some p => if p ≠ 0 then ["PROGRAM-ID=" ++ toString p] else []
   | none => [])
  ++ (match si.bandwidth with
      | some bw => if bw ≠ 0 then ["BANDWIDTH=" ++ toString bw] else []
      | none => [])
  ++ (match si.codecs with
      | [] => []
      | c :: cs => ["CODECS=\"" ++ joinComma (c :: cs) ++ "\""])
  ++ (match si.resolution with
      | some r =>
          if r.width ≠ 0 ∧ r.height ≠ 0 then
            ["RESOLUTION=" ++ toString r.width ++ "x" ++ toString r.height]
          else []
      | none => [])

/-- Like `presentAttrsUtils` but with the RESOLUTION rule of `info_to_text`:
only the width is required to be positive. -/
def presentAttrsGen (si : StreamInfo) : List String :=
  (match si.program_id with
   | some p => if p ≠ 0 then ["PROGRAM-ID=" ++ toString p] else []
   | none => [])
  ++ (match si.bandwidth with
      | some bw => if bw ≠ 0 then ["BANDWIDTH=" ++ toString bw] else []
      | none => [])
  ++ (match si.codecs with
      | [] => []
      | c :: cs => ["CODECS=\"" ++ joinComma (c :: cs) ++ "\""])
  ++ (match si.resolution with
      | some r =>
          if r.width ≠ 0 then
            ["RESOLUTION=" ++ toString r.width ++ "x" ++ toString r.height]
          else []
      | none => [])

/-- Whether `stream_info_to_extinf` emits a RESOLUTION attribute. -/
def hasResUtils (si : StreamInfo) : Bool :=
  match si.resolution with
  | some r => decide (r.width ≠ 0 ∧ r.height ≠ 0)
  | none => false

/-- Whether `info_to_text` emits a RESOLUTION attribute. -/
def hasResGen (si : StreamInfo) : Bool :=
  match si.resolution with
  | some r => decide (r.width ≠ 0)
  | none => false

/-- The wording of the spec for one rendered block: the present attributes
comma-separated in the listed order, then — the amendment — a dangling
comma exactly when some attribute is present but RESOLUTION is absent,
then the newline and the URI line. -/
def specLine (attrs : List String) (dangling : Bool) (url : String) : String :=
  "#EXT-X-STREAM-INF:" ++ joinComma attrs ++ (if dangling then "," else "") ++
    "\n" ++ url ++ "\n"

/-- Counterexample input for C4: bandwidth present, resolution 1920×0. -/
def siC4 : StreamInfo := ⟨none, some 500000, [], some ⟨1920, 0⟩, none⟩

/-! ## Manifest resolver (src/eurostartv_plugin.py)

The three regexes `_re_m3u8`, `_re_iframe` and `_re_source_url` are
translated into explicit left-to-right scanners: `re.search` tries every
start position in order; at each position an alternation tries its branches
in pattern order; greedy pieces whose following context is excluded from
their character class are maximal-munch; the one genuinely backtracking
piece (`[^>]+` before `src=` in the iframe pattern, `[^...]+` before
`\.m3u8`) is resolved in closed form below.  All literal matching is
case-insensitive (`re.IGNORECASE`). -/

/-- The single-quote and left-brace characters (by code point). -/
def squote : Char := Char.ofNat 39

def lbrace : Char := Char.ofNat 123

def isQuote (c : Char) : Bool := c = '"' || c = squote

/-- The Python class `\s` for ASCII text: space, tab, newline, carriage return,
vertical tab, form feed. -/
def pySpace (c : Char) : Bool :=
  c = ' ' || c = '\t' || c = '\n' || c = '\r' || c = Char.ofNat 11 || c = Char.ofNat 12

/-- Maximal munch of `\s*`. -/
def skipPySp : List Char → List Char
  | [] => []
  | c :: cs => if pySpace c then skipPySp cs else c :: cs

/-- Case-insensitive literal match; returns the consumed original
characters and the remainder. -/
def eatLitCI : List Char → List Char → Option (List Char × List Char)
  | [], cs => some ([], cs)
  | _ :: _, [] => none
  | p :: ps, c :: cs =>
    if c.toLower = p.toLower then
      match eatLitCI ps cs with
      | some (tk, rest) => some (c :: tk, rest)
      | none => none
    else none

/-- Case-insensitive prefix test. -/
def isPrefixOfCI : List Char → List Char → Bool
  | [], _ => true
  | _ :: _, [] => false
  | p :: ps, c :: cs => (p.toLower = c.toLower) && isPrefixOfCI ps cs

/-- Case-insensitive substring test. -/
def listContainsCI (pat hay : List Char) : Bool :=
  isPrefixOfCI pat hay ||
    match hay with
    | [] => false
    | _ :: t => listContainsCI pat t

/-- Matcher for the scheme (http or https followed by the separator),
case-insensitively; returns the consumed characters. -/
def eatScheme (cs : List Char) : Option (List Char × List Char) :=
  match eatLitCI "http".data cs with
  | none => none
  | some (t1, r1) =>
    match r1 with
    | [] => none
    | c :: r2 =>
      if c.toLower = 's' then
        match eatLitCI "://".data r2 with
        | some (t3, r3) => some (t1 ++ c :: t3, r3)
        | none => none
      else
        match eatLitCI "://".data r1 with
        | some (t3, r3) => some (t1 ++ t3, r3)
        | none => none

/-- Matcher for the scheme followed by one or more non-quote characters
and a closing quote: the captured URL of the player-config alternatives. -/
def eatUrl (cs : List Char) : Option (String × List Char) :=
  match eatScheme cs with
  | none => none
  | some (tk, r) =>
    let body := r.takeWhile (fun c => !isQuote c)
    let rest := r.dropWhile (fun c => !isQuote c)
    if body.isEmpty then none
    else
      match rest with
      | q :: rest2 => if isQuote q then some (String.mk (tk ++ body), rest2) else none
      | [] => none

/-- An opening quote, then `eatUrl`. -/
def eatQuotedUrl (cs : List Char) : Option String :=
  match cs with
  | [] => none
  | q :: r =>
    if isQuote q then
      match eatUrl r with
      | some (u, _) => some u
      | none => none
    else none

/-- First alternative of `_re_source_url`: the literal `source`, optional
whitespace, a colon, a left brace, the literal `src`, a colon and a quoted
URL, each with optional whitespace between. -/
def altSource (cs : List Char) : Option String :=
  match eatLitCI "source".data cs with
  | none => none
  | some (_, r) =>
    match eatLitCI ":".data (skipPySp r) with
    | none => none
    | some (_, r) =>
      match skipPySp r with
      | [] => none
      | c :: r =>
        if c = lbrace then
          match eatLitCI "src".data (skipPySp r) with
          | none => none
          | some (_, r) =>
            match eatLitCI ":".data (skipPySp r) with
            | none => none
            | some (_, r) => eatQuotedUrl (skipPySp r)
        else none

/-- Second alternative of `_re_source_url`: the literal `file`, a colon
and a quoted URL, with optional whitespace between. -/
def altFile (cs : List Char) : Option String :=
  match eatLitCI "file".data cs with
  | none => none
  | some (_, r) =>
    match eatLitCI ":".data (skipPySp r) with
    | none => none
    | some (_, r) => eatQuotedUrl (skipPySp r)

/-- Third alternative of `_re_source_url`: the literal `hls`, a colon and
a quoted URL, with optional whitespace between. -/
def altHls (cs : List Char) : Option String :=
  match eatLitCI "hls".data cs with
  | none => none
  | some (_, r) =>
    match eatLitCI ":".data (skipPySp r) with
    | none => none
    | some (_, r) => eatQuotedUrl (skipPySp r)

/-- One attempt of the `_re_source_url` alternation at a fixed position:
branches in pattern order. -/
def tryAlts (cs : List Char) : Option String :=
  match altSource cs with
  | some u => some u
  | none =>
    match altFile cs with
    | some u => some u
    | none => altHls cs

/-- Search semantics for `_re_source_url`: leftmost start position wins. -/
def searchPlayer : List Char → Option String
  | [] => none
  | c :: cs =>
    match tryAlts (c :: cs) with
    | some u => some u
    | none => searchPlayer cs

/-- Translation of `_find_player_source_url(text)`: the capture of the
matched alternative (`src1 or src2 or src3`). -/
def find_player_source_url (text : String) : Option String :=
  searchPlayer text.data

/-- The character class of `_re_m3u8`: everything but quotes, backslash
and whitespace. -/
def allowedM3 (c : Char) : Bool := !isQuote c && c ≠ '\\' && !pySpace c

/-- One attempt of `_re_m3u8` at a fixed position: the scheme, then one
or more allowed characters, the literal `.m3u8` and more allowed
characters (IGNORECASE).  After the scheme the greedy pieces together
match the maximal run of allowed characters provided `.m3u8` occurs
(case-insensitively) somewhere past the first character of the run. -/
def m3u8At (cs : List Char) : Option String :=
  match eatScheme cs with
  | none => none
  | some (tk, r) =>
    let run := r.takeWhile allowedM3
    match run with
    | [] => none
    | _ :: t =>
      if listContainsCI ".m3u8".data t then some (String.mk (tk ++ run)) else none

/-- Search semantics for `_re_m3u8`. -/
def searchM3u8 : List Char → Option String
  | [] => none
  | c :: cs =>
    match m3u8At (c :: cs) with
    | some u => some u
    | none => searchM3u8 cs

/-- Translation of `_find_m3u8_in_text(text)`. -/
def find_m3u8_in_text (text : String) : Option String :=
  searchM3u8 text.data

/-- Matcher for a quoted, non-empty src attribute value at a fixed
position (case-insensitive `src=`). -/
def eatSrcAttr (cs : List Char) : Option String :=
  match eatLitCI "src=".data cs with
  | none => none
  | some (_, r) =>
    match r with
    | [] => none
    | q :: r2 =>
      if isQuote q then
        let body := r2.takeWhile (fun c => !isQuote c)
        let rest := r2.dropWhile (fun c => !isQuote c)
        if body.isEmpty then none
        else
          match rest with
          | q2 :: _ => if isQuote q2 then some (String.mk body) else none
          | [] => none
      else none

/-- Resolution of the greedy `[^>]+` of `_re_iframe`: walk the characters
after `<iframe` up to the first `>`, recording every position (at gap ≥ 1)
where a quoted src attribute matches; the greedy engine commits to the last
such position. -/
def srcCandidates : List Char → Nat → Option String → Option String
  | [], _, acc => acc
  | c :: t, gapLen, acc =>
    let acc2 :=
      if 1 ≤ gapLen then
        match eatSrcAttr (c :: t) with
        | some s => some s
        | none => acc
      else acc
    if c = '>' then acc2 else srcCandidates t (gapLen + 1) acc2

/-- One attempt of `_re_iframe` at a fixed position: the literal
`<iframe`, a non-empty gap free of the closing angle bracket, then a
quoted src attribute. -/
def iframeAt (cs : List Char) : Option String :=
  match eatLitCI "<iframe".data cs with
  | none => none
  | some (_, r) => srcCandidates r 0 none

/-- Search semantics for `_re_iframe` (first occurrence only). -/
def searchIframe : List Char → Option String
  | [] => none
  | c :: cs =>
    match iframeAt (c :: cs) with
    | some u => some u
    | none => searchIframe cs

/-- The raw `src` captured by `_find_iframe_url` before `urljoin`. -/
def find_iframe_src (html : String) : Option String :=
  searchIframe html.data

/-! ### `urllib.parse.urljoin` model -/

def startsWithStr (s p : String) : Bool := p.data.isPrefixOf s.data

def hasHttpScheme (s : String) : Bool :=
  isPrefixOfCI "http://".data s.data || isPrefixOfCI "https://".data s.data

def schemeLen (s : String) : Nat :=
  if isPrefixOfCI "https://".data s.data then 8
  else if isPrefixOfCI "http://".data s.data then 7
  else 0

/-- The scheme-and-host prefix of an http(s) base URL. -/
def schemeNetloc (s : String) : String :=
  String.mk (s.data.take (schemeLen s) ++
    (s.data.drop (schemeLen s)).takeWhile (fun c => c ≠ '/'))

/-- The path component (from the first `/` after the authority). -/
def basePath (s : String) : List Char :=
  (s.data.drop (schemeLen s)).dropWhile (fun c => c ≠ '/')

/-- The base path up to and including its last `/` (RFC 3986 merge); `/`
when the base path is empty. -/
def dirOf (p : List Char) : List Char :=
  match (p.reverse.dropWhile (fun c => c ≠ '/')).reverse with
  | [] => ['/']
  | d => d

def splitOnSlash : List Char → List (List Char)
  | [] => [[]]
  | c :: t =>
    if c = '/' then [] :: splitOnSlash t
    else
      match splitOnSlash t with
      | [] => [[c]]
      | s :: rest => (c :: s) :: rest

def joinSlash : List (List Char) → List Char
  | [] => []
  | [s] => s
  | s :: rest => s ++ '/' :: joinSlash rest

/-- Dot-segment removal on the segments after the leading `/`: `.` is
dropped, `..` pops the previous segment (clamped at the root); a trailing
dot segment leaves a trailing slash. -/
def normSegs : List (List Char) → List (List Char) → List (List Char)
  | [], acc => acc.reverse
  | s :: rest, acc =>
    if s = ['.'] then
      normSegs rest (if rest.isEmpty then [] :: acc else acc)
    else if s = ['.', '.'] then
      normSegs rest (if rest.isEmpty then [] :: acc.tail else acc.tail)
    else normSegs rest (s :: acc)

def removeDotSegments (p : List Char) : List Char :=
  match splitOnSlash p with
  | [] => p
  | first :: rest => joinSlash (first :: normSegs rest [])

/-- Model of `urllib.parse.urljoin`, restricted to http(s) base URLs of
the form `scheme://host[/path]` without query or fragment, and to
reference URLs that are http(s)-absolute, protocol-relative, root-relative
or path-relative — the shapes produced by the iframe resolution of the
plugin. -/
def urljoin (base url : String) : String :=
  if url = "" then base
  else if hasHttpScheme url then url
  else if startsWithStr url "//" then
    String.mk (base.data.take (schemeLen base - 2)) ++ url
  else if startsWithStr url "/" then
    schemeNetloc base ++ String.mk (removeDotSegments url.data)
  else
    schemeNetloc base ++ String.mk (removeDotSegments (dirOf (basePath base) ++ url.data))

/-- Translation of `_find_iframe_url(html, base_url)`: first iframe
`src`, resolved against the base. -/
def find_iframe_url (html base : String) : Option String :=
  match find_iframe_src html with
  | some src => some (urljoin base src)
  | none => none

/-! ### `_get_streams` pipeline -/

/-- Outcomes of `_get_streams`: a variant playlist parsed from a located
manifest URL, `None` (no public manifest found), or a propagated exception
from a failed HTTP fetch. -/
inductive ResolveOutcome where
  | found : String → ResolveOutcome
  | notFound : ResolveOutcome
  | fetchError : ResolveOutcome
  deriving Repr, DecidableEq

/-- Step 3 of `_get_streams`: a player-config URL counts only when it
contains `.m3u8` (case-sensitive Python `in`); otherwise fall through. -/
def playerStep (html : String) : Option String :=
  match find_player_source_url html with
  | some src => if strContains src ".m3u8" then some src else none
  | none => none

/-- Translation of `_get_streams` with the HTTP fetch injected (`none`
models a raised request exception, which `_get_streams` does not catch).
Here `found u` stands for `HLSStream.parse_variant_playlist(self.session, u)`. -/
def resolve (fetch : String → Option String) (pageUrl : String) : ResolveOutcome :=
  match fetch pageUrl with
  | none => ResolveOutcome.fetchError
  | some html =>
    match find_m3u8_in_text html with
    | some u => ResolveOutcome.found u
    | none =>
      match playerStep html with
      | some src => ResolveOutcome.found src
      | none =>
        match find_iframe_url html pageUrl with
        | none => ResolveOutcome.notFound
        | some iframeUrl =>
          match fetch iframeUrl with
          | none => ResolveOutcome.fetchError
          | some html2 =>
            match find_m3u8_in_text html2 with
            | some u => ResolveOutcome.found u
            | none =>
              match playerStep html2 with
              | some src2 => ResolveOutcome.found src2
              | none => ResolveOutcome.notFound

/-! ## Batch runner (`main` in src/generate.py, lines 91-167) -/

structure Channel where
  slug : String
  url : String
  headers : List (String × String)
  deriving Repr, DecidableEq

/-- Per-channel outcome of one iteration of the channel loop of `main`:
streamlink returned no streams, no multivariant playlist
was available, both files were written, or an exception was raised (and
caught by the per-channel `except`). -/
inductive ChanOutcome where
  | noStreams : ChanOutcome
  | noMaster : ChanOutcome
  | written : ChanOutcome
  | errored : ChanOutcome
  deriving Repr, DecidableEq

/-- The `success`/`fail` counters of the loop in `main`, with the per-channel
work (fetch, build, write) injected as `step`.  Exactly one counter is
incremented per channel and the loop never aborts early: a failing channel
only adds to `fail`. -/
def channelCounts (step : Channel → ChanOutcome) (channels : List Channel) : Nat × Nat :=
  channels.foldl
    (fun sf c =>
      match step c with
      | ChanOutcome.written => (sf.1 + 1, sf.2)
      | _ => (sf.1, sf.2 + 1))
    (0, 0)

/-- The exit code of `main`: `sys.exit(1)` when the config fails to
load, `sys.exit(1)` after the loop when `success == 0`, otherwise falling
off the end of `main` exits with 0. -/
def mainExitCode (config : Option (List Channel)) (step : Channel → ChanOutcome) : Nat :=
  match config with
  | none => 1
  | some channels =>
    if (channelCounts step channels).1 = 0 then 1 else 0

/-! ## Per-channel session headers
(`get_streams` in src/generate.py, `make_streamlink_session` in
src/utils.py) -/

/-- A Python dict as an association list with unique keys in insertion
order; `insertOrAssign` is one `d[k] = v` step: overwrite the value in
place if the key exists, else append. -/
def insertOrAssign (d : List (String × String)) (k v : String) : List (String × String) :=
  match d with
  | [] => [(k, v)]
  | p :: t => if p.1 = k then (k, v) :: t else p :: insertOrAssign t k v

/-- Translation of `default_headers.update(headers)`: assign each pair
in order. -/
def dictUpdate (d : List (String × String)) : List (String × String) → List (String × String)
  | [] => d
  | (k, v) :: t => dictUpdate (insertOrAssign d k v) t

/-- Dict lookup. -/
def lookupKey (k : String) : List (String × String) → Option String
  | [] => none
  | p :: t => if p.1 = k then some p.2 else lookupKey k t

/-- The default header dict, constructed afresh on every call. -/
def defaultHeaders : List (String × String) := [("User-Agent", "Mozilla/5.0")]

/-- The `http-headers` option value set by `get_streams` /
`make_streamlink_session`: a fresh session and a fresh default dict per
call, updated key-by-key with the headers of the channel itself
(`if headers:` skips the update for `None`/empty, with the same result).
That each call builds its session and dicts afresh — no state is shared
between channels — is what makes this a pure function of the headers of
that one channel. -/
def sessionHeaders (headers : List (String × String)) : List (String × String) :=
  if headers.isEmpty then defaultHeaders else dictUpdate defaultHeaders headers

/-- The sequence of `http-headers` dicts a batch run configures, one per
channel in order. -/
def headerTrace (channels : List Channel) : List (List (String × String)) :=
  channels.map (fun c => sessionHeaders c.headers)

/-- Witness channels for C10. -/
def chanX : Channel := ⟨"x", "https://x.example/live", [("X-Test", "1")]⟩

def chanY : Channel := ⟨"y", "https://y.example/live", [("Referer", "https://y.example")]⟩

def chanB : Channel :=
  ⟨"b", "https://b.example/live", [("Referer", "https://r.example"), ("User-Agent", "Custom/1.0")]⟩

/-! ## Concrete resolver inputs -/

/-- A page where a `file:` sub-form occurs textually before a
`source:{src:...}` sub-form. -/
def cexC6 : String :=
  "file: \"http://a.example/x.m3u8\" source: \x7b src: \"http://b.example/y.m3u8\" \x7d"

/-- A page whose only player-config match is an `hls:` sub-form at
position 11. -/
def wtC6 : String := "config = \x7b hls: \"http://c.example/h.m3u8\" \x7d"

/-- An outer page with no manifest and no player config, only an iframe
with a relative `src`. -/
def pageC7 : String :=
  "<html><body><iframe width=\"600\" src=\"embed/player.html\"></iframe></body></html>"

/-- The iframe document, which contains the manifest URL. -/
def innerC7 : String :=
  "<script>var u = \"https://cdn.example.com/live/stream.m3u8\";</script>"

/-- Fetch oracle for C7: serves the outer page and the resolved iframe
URL. -/
def fetchC7 : String → Option String := fun u =>
  if u = "https://example.com/watch" then some pageC7
  else if u = "https://example.com/embed/player.html" then some innerC7
  else none

/-- An outer page whose iframe points at an absolute URL. -/
def pageC8 : String := "<div><iframe src=\"https://other.example/embed\"></iframe></div>"

/-- Fetch oracle for C8: the outer page loads, the iframe URL does not. -/
def fetchC8 : String → Option String := fun u =>
  if u = "https://example.com/watch" then some pageC8 else none

/-! ## Lemmas about the synthesizer -/

instance : IsTotal Playlist heightGe :=
  ⟨fun a b => Nat.le_total (height_of b) (height_of a)⟩

instance : IsTrans Playlist heightGe :=
  ⟨fun _ _ _ hab hbc => Nat.le_trans hbc hab⟩

theorem sortPlaylists_perm (l : List Playlist) : List.Perm (sortPlaylists l) l :=
  List.perm_insertionSort heightGe l

theorem mem_sortPlaylists {l : List Playlist} {p : Playlist} :
    p ∈ sortPlaylists l ↔ p ∈ l :=
  (sortPlaylists_perm l).mem_iff

/-- The head of the stable descending sort realises the maximum height. -/
theorem head_height_max (l : List Playlist) (p0 : Playlist) (rest : List Playlist)
    (hs : sortPlaylists l = p0 :: rest) : ∀ q ∈ l, height_of q ≤ height_of p0 := by
  intro q hq
  have hmem : q ∈ p0 :: rest := hs ▸ mem_sortPlaylists.mpr hq
  rcases List.mem_cons.mp hmem with h | h
  · subst h; exact Nat.le_refl _
  · have hsorted : List.Sorted heightGe (p0 :: rest) := by
      rw [← hs]; exact List.sorted_insertionSort heightGe l
    exact List.rel_of_sorted_cons hsorted q h

theorem append_newline_ne (a : String) : a ++ "\n" ≠ "" := by
  intro h
  have hlen := congrArg String.length h
  rw [String.length_append] at hlen
  have h1 : ("\n" : String).length = 1 := rfl
  have h2 : ("" : String).length = 0 := rfl
  omega

theorem extinf_ne_empty (si : StreamInfo) (u : String) :
    stream_info_to_extinf si u ≠ "" :=
  append_newline_ne _

theorem append_left_ne_empty {a : String} (b : String) (ha : a ≠ "") : a ++ b ≠ "" := by
  intro h
  have hlen := congrArg String.length h
  rw [String.length_append] at hlen
  have h2 : ("" : String).length = 0 := rfl
  have h3 : a.length ≠ 0 := fun hz => ha (by
    cases a with
    | mk data => cases data with
      | nil => rfl
      | cons c cs => simp [String.length] at hz)
  omega

/-- Fact: `surviving p = false` exactly at the entries both loops skip. -/
theorem not_surviving_iff (p : Playlist) :
    surviving p = false ↔
      p.stream_info = none ∨ ∃ info, p.stream_info = some info ∧ info.video = some "audio_only" := by
  cases hsi : p.stream_info with
  | none => simp [surviving, hsi]
  | some info =>
    simp only [surviving, hsi]
    by_cases hv : info.video = some "audio_only" <;> simp [hv]

theorem mb_loop_skip_all (l : List Playlist) (h : ∀ p ∈ l, surviving p = false) :
    ∀ i m b, mb_loop l i m b = (m, b) := by
  induction l with
  | nil => intro i m b; rfl
  | cons p ps ih =>
    intro i m b
    have hp := h p (List.mem_cons_self p ps)
    have hps : ∀ q ∈ ps, surviving q = false := fun q hq => h q (List.mem_cons_of_mem p hq)
    rcases (not_surviving_iff p).mp hp with hn | ⟨info, hsi, hv⟩
    · simp [mb_loop, hn, ih hps]
    · simp [mb_loop, hsi, hv, ih hps]

theorem bp_loop_skip_all (l : List Playlist) (h : ∀ p ∈ l, surviving p = false) :
    ∀ prev m b, bp_loop l prev m b = (m, b) := by
  induction l with
  | nil => intro prev m b; rfl
  | cons p ps ih =>
    intro prev m b
    have hp := h p (List.mem_cons_self p ps)
    have hps : ∀ q ∈ ps, surviving q = false := fun q hq => h q (List.mem_cons_of_mem p hq)
    rcases (not_surviving_iff p).mp hp with hn | ⟨info, hsi, hv⟩
    · simp [bp_loop, hn, ih hps]
    · simp [bp_loop, hsi, hv, ih hps]

/-- Characterisation of the `build_master_and_best` loop away from index 0:
the master text accumulates one block per surviving entry, the best text is
untouched. -/
theorem mb_loop_pos (l : List Playlist) :
    ∀ i, i ≠ 0 → ∀ m b,
      mb_loop l i m b = (m ++ strJoin ((l.filter surviving).map renderP), b) := by
  induction l with
  | nil => intro i _ m b; simp [mb_loop, strJoin]
  | cons p ps ih =>
    intro i hi m b
    cases hsi : p.stream_info with
    | none =>
      have hsurv : surviving p = false := by simp [surviving, hsi]
      simp [mb_loop, hsi, ih (i + 1) (Nat.succ_ne_zero i), hsurv]
    | some info =>
      by_cases hv : info.video = some "audio_only"
      · have hsurv : surviving p = false := by simp [surviving, hsi, hv]
        simp [mb_loop, hsi, hv, ih (i + 1) (Nat.succ_ne_zero i), hsurv]
      · have hsurv : surviving p = true := by simp [surviving, hsi, hv]
        have hrp : renderP p = stream_info_to_extinf info p.uri := by simp [renderP, hsi]
        simp [mb_loop, hsi, hv, hi, ih (i + 1) (Nat.succ_ne_zero i), hsurv, strJoin, hrp,
          String.append_assoc]

/-- Full characterisation of `build_master_and_best` when the sorted-first
entry survives the filter. -/
theorem build_mb_eq (mv : Multivariant) (p0 : Playlist) (rest : List Playlist)
    (hs : sortPlaylists mv.playlists = p0 :: rest) (hp0 : surviving p0 = true) :
    build_master_and_best (streamsOf mv) =
      (some (headerOf mv ++ (renderP p0 ++ strJoin ((rest.filter surviving).map renderP))),
       some (headerOf mv ++ renderP p0)) := by
  obtain ⟨info, hsi, hv⟩ : ∃ info, p0.stream_info = some info ∧ ¬ info.video = some "audio_only" := by
    cases hsi : p0.stream_info with
    | none => simp [surviving, hsi] at hp0
    | some info =>
      refine ⟨info, rfl, fun hv => ?_⟩
      simp [surviving, hsi, hv] at hp0
  rcases hL : mv.playlists with _ | ⟨q, qs⟩
  · rw [hL] at hs
    simp [sortPlaylists, List.insertionSort] at hs
  · have hs' : sortPlaylists (q :: qs) = p0 :: rest := by rw [← hL, hs]
    have hloop : mb_loop (p0 :: rest) 0 "" "" =
        (stream_info_to_extinf info p0.uri ++ strJoin ((rest.filter surviving).map renderP),
         stream_info_to_extinf info p0.uri) := by
      simp [mb_loop, hsi, hv, mb_loop_pos rest 1 (Nat.succ_ne_zero 0)]
    have hsub_ne : stream_info_to_extinf info p0.uri ≠ "" := extinf_ne_empty info p0.uri
    have hmaster_ne :
        stream_info_to_extinf info p0.uri ++ strJoin ((rest.filter surviving).map renderP) ≠ "" :=
      append_left_ne_empty _ hsub_ne
    have hrp : renderP p0 = stream_info_to_extinf info p0.uri := by simp [renderP, hsi]
    simp only [build_master_and_best, streamsOf, hL, hs', hloop]
    rw [if_neg (by simp [hsub_ne, hmaster_ne])]
    cases hver : mv.version with
    | none => simp [addVersion, headerOf, hver, hrp]
    | some v =>
      by_cases hvz : v = 0
      · simp [addVersion, headerOf, hver, hvz, hrp]
      · simp [addVersion, headerOf, hver, hvz, hrp, String.append_assoc]

/-! ## Claims C1, C2, C3, C5 -/

/-- C1 (amended).  For a `ManifestVariantSet` whose entries all carry
stream info and whose *sorted-first* (earliest maximum-height) variant is
non-audio, the master body is the header followed by exactly one
`#EXT-X-STREAM-INF`/URI block per non-audio variant, in height-descending
order, and the first block is that of a variant of maximum
`resolution.height` (missing height counting as 0).
The unamended claim — which asks this of every set with at least one
non-audio variant — fails when the maximum-height variant is audio-only
(see the counterexample). -/
theorem claim_C1_amended (mv : Multivariant) (p0 : Playlist) (rest : List Playlist)
    (hs : sortPlaylists mv.playlists = p0 :: rest)
    (_hinfo : ∀ p ∈ mv.playlists, p.stream_info.isSome = true)
    (hp0 : surviving p0 = true) :
    build_master_and_best (streamsOf mv) =
      (some (headerOf mv ++ strJoin (((p0 :: rest).filter surviving).map renderP)),
       some (headerOf mv ++ renderP p0))
    ∧ ((p0 :: rest).filter surviving).length = (mv.playlists.filter surviving).length
    ∧ ((p0 :: rest).filter surviving).head? = some p0
    ∧ ∀ q ∈ mv.playlists, height_of q ≤ height_of p0 := by
  have hfilter : (p0 :: rest).filter surviving = p0 :: rest.filter surviving :=
    List.filter_cons_of_pos hp0
  refine ⟨?_, ?_, ?_, head_height_max mv.playlists p0 rest hs⟩
  · rw [build_mb_eq mv p0 rest hs hp0, hfilter]
    simp [strJoin]
  · have hperm : List.Perm ((sortPlaylists mv.playlists).filter surviving)
        (mv.playlists.filter surviving) :=
      (sortPlaylists_perm mv.playlists).filter surviving
    rw [hs] at hperm
    exact hperm.length_eq
  · rw [hfilter]; rfl

/-- C1 witness: two video variants given in ascending order; the sorted
master lists 1080 then 720 and the best body is the 1080 block. -/
theorem claim_C1_witness :
    build_master_and_best (streamsOf mvTwoAsc) =
      (some (headerOf mvTwoAsc ++
        strJoin (((⟨some (vinfo 1080 1920 5000), "w1080"⟩ :: [⟨some (vinfo 720 1280 2000), "w720"⟩]).filter surviving).map renderP)),
       some (headerOf mvTwoAsc ++ renderP ⟨some (vinfo 1080 1920 5000), "w1080"⟩))
    ∧ ((⟨some (vinfo 1080 1920 5000), "w1080"⟩ :: [⟨some (vinfo 720 1280 2000), "w720"⟩]).filter surviving).length
        = (mvTwoAsc.playlists.filter surviving).length
    ∧ ((⟨some (vinfo 1080 1920 5000), "w1080"⟩ :: [⟨some (vinfo 720 1280 2000), "w720"⟩]).filter surviving).head?
        = some ⟨some (vinfo 1080 1920 5000), "w1080"⟩
    ∧ ∀ q ∈ mvTwoAsc.playlists, height_of q ≤ height_of ⟨some (vinfo 1080 1920 5000), "w1080"⟩ :=
  claim_C1_amended mvTwoAsc ⟨some (vinfo 1080 1920 5000), "w1080"⟩
    [⟨some (vinfo 720 1280 2000), "w720"⟩] (by decide) (by decide) (by decide)

/-- C1 counterexample.  `mvAudioTop` has exactly one non-audio variant, yet
synthesis returns no master body at all, because its maximum-height variant
is audio-only: the sorted-first entry is skipped, the best text stays empty
and `build_master_and_best` bails out with `(None, None)`. -/
theorem claim_C1_counterexample :
    (mvAudioTop.playlists.filter surviving).length = 1
    ∧ (∀ p ∈ mvAudioTop.playlists, p.stream_info.isSome = true)
    ∧ build_master_and_best (streamsOf mvAudioTop) = (none, none) := by decide

/-- C2 (amended).  When the sorted-first variant (the earliest one of
maximum height) survives the filter, the best body is exactly the header
lines followed by the single rendered block of that variant.  The unamended
claim — asked of every set with at least one surviving variant — fails
when the maximum-height variant is audio-only (see the counterexample);
the concrete 1080/720/480-audio example of the spec does hold (see the
witness). -/
theorem claim_C2_amended (mv : Multivariant) (p0 : Playlist) (rest : List Playlist)
    (hs : sortPlaylists mv.playlists = p0 :: rest)
    (hp0 : surviving p0 = true) :
    (build_master_and_best (streamsOf mv)).2 = some (headerOf mv ++ renderP p0) := by
  rw [build_mb_eq mv p0 rest hs hp0]

/-- C2 witness: the concrete triple of the spec (1080, 720, 480-audio);
the best body is
the 1080 block alone and, additionally evaluated, the master lists exactly
1080 then 720. -/
theorem claim_C2_witness :
    (build_master_and_best (streamsOf mvTriple)).2 =
      some (headerOf mvTriple ++ renderP ⟨some (vinfo 1080 1920 5000), "u1080"⟩)
    ∧ build_master_and_best (streamsOf mvTriple) =
      (some ("#EXTM3U\n#EXT-X-VERSION:3\n#EXT-X-STREAM-INF:BANDWIDTH=5000,RESOLUTION=1920x1080\nu1080\n#EXT-X-STREAM-INF:BANDWIDTH=2000,RESOLUTION=1280x720\nu720\n"),
       some ("#EXTM3U\n#EXT-X-VERSION:3\n#EXT-X-STREAM-INF:BANDWIDTH=5000,RESOLUTION=1920x1080\nu1080\n")) :=
  ⟨claim_C2_amended mvTriple ⟨some (vinfo 1080 1920 5000), "u1080"⟩
      [⟨some (vinfo 720 1280 2000), "u720"⟩, ⟨some (ainfo 480 854 600), "u480"⟩]
      (by decide) (by decide),
   by decide⟩

/-- C2 counterexample.  `mvAudioTop2` has a surviving (non-audio) variant,
but the best body is absent — not the block of the highest surviving
variant — because the audio-only 2160p entry occupies index 0 of the
sorted list. -/
theorem claim_C2_counterexample :
    mvAudioTop2.playlists.filter surviving ≠ []
    ∧ (build_master_and_best (streamsOf mvAudioTop2)).2 = none := by decide

/-- C3.  The single-pass builder (`build_playlists`, which prepends a block
whenever the current height exceeds the previous one) and the explicit-sort
builder (`build_master_and_best`) produce different master bodies on a
variant list whose heights are non-monotonic in source order (720, 360,
480): the one-pass master is 480, 720, 360 while the sorted master is
720, 480, 360. -/
theorem claim_C3 :
    ∃ streams : StreamsDict,
      (build_playlists streams).1 ≠ (build_master_and_best streams).1 :=
  ⟨streamsOf mvNonMono, by decide⟩

/-- C5.  Synthesis of an empty variant list, or of a list whose variants
are all audio-only, yields `(None, None)` — no header-only or single-line
document — under both builders. -/
theorem claim_C5 (mv : Multivariant)
    (h : mv.playlists = [] ∨
      ∀ p ∈ mv.playlists, Option.map StreamInfo.video p.stream_info = some (some "audio_only")) :
    build_playlists (streamsOf mv) = (none, none)
    ∧ build_master_and_best (streamsOf mv) = (none, none) := by
  rcases h with hnil | hall
  · constructor <;> simp [build_playlists, build_master_and_best, streamsOf, hnil]
  · have hsurv : ∀ p ∈ mv.playlists, surviving p = false := by
      intro p hp
      have := hall p hp
      cases hsi : p.stream_info with
      | none => rw [hsi] at this; exact absurd this (by simp)
      | some info =>
        rw [hsi] at this
        have hv : info.video = some "audio_only" := by simpa using this
        apply (not_surviving_iff p).mpr
        exact Or.inr ⟨info, hsi, hv⟩
    rcases hL : mv.playlists with _ | ⟨q, qs⟩
    · constructor <;> simp [build_playlists, build_master_and_best, streamsOf, hL]
    · rw [hL] at hsurv
      have hsurvSorted : ∀ p ∈ sortPlaylists (q :: qs), surviving p = false :=
        fun p hp => hsurv p (mem_sortPlaylists.mp hp)
      constructor
      · simp [build_playlists, streamsOf, hL, bp_loop_skip_all (q :: qs) hsurv]
      · simp [build_master_and_best, streamsOf, hL,
          mb_loop_skip_all (sortPlaylists (q :: qs)) hsurvSorted]

/-- C5 witness: a list of two audio-only variants yields `(None, None)`
from both builders. -/
theorem claim_C5_witness :
    build_playlists (streamsOf mvAllAudio) = (none, none)
    ∧ build_master_and_best (streamsOf mvAllAudio) = (none, none) :=
  claim_C5 mvAllAudio (Or.inr (by decide))

/-! ## Claim C4: attribute rendering -/

theorem extinf_eq_specLine (si : StreamInfo) (url : String) :
    stream_info_to_extinf si url =
      specLine (presentAttrsUtils si) (!(presentAttrsUtils si).isEmpty && !hasResUtils si) url := by
  obtain ⟨pid, bw, cds, res, vid⟩ := si
  rcases pid with _ | p <;> rcases bw with _ | n <;> rcases cds with _ | ⟨c, cs⟩ <;>
    rcases res with _ | ⟨w, h⟩ <;>
    simp only [stream_info_to_extinf, specLine, presentAttrsUtils, hasResUtils] <;>
    split_ifs <;>
    simp_all [joinComma, String.append_assoc]

theorem info_to_text_eq_specLine (si : StreamInfo) (url : String) :
    info_to_text si url =
      specLine (presentAttrsGen si) (!(presentAttrsGen si).isEmpty && !hasResGen si) url := by
  obtain ⟨pid, bw, cds, res, vid⟩ := si
  rcases pid with _ | p <;> rcases bw with _ | n <;> rcases cds with _ | ⟨c, cs⟩ <;>
    rcases res with _ | ⟨w, h⟩ <;>
    simp only [info_to_text, specLine, presentAttrsGen, hasResGen] <;>
    split_ifs <;>
    simp_all [joinComma, String.append_assoc]

/-- C4 (amended).  Every rendered `#EXT-X-STREAM-INF` line contains exactly
the attributes whose presence rules hold, comma-separated in the listed
order (PROGRAM-ID, BANDWIDTH, CODECS, RESOLUTION), except that — contrary
to the unamended claim — (i) the line keeps a dangling comma before the
newline whenever some attribute is present but RESOLUTION is absent, and
(ii) `info_to_text` emits RESOLUTION whenever the width alone is positive
(the height is unchecked), while `stream_info_to_extinf` requires both
coordinates positive. -/
theorem claim_C4_amended (si : StreamInfo) (url : String) :
    stream_info_to_extinf si url =
      specLine (presentAttrsUtils si) (!(presentAttrsUtils si).isEmpty && !hasResUtils si) url
    ∧ info_to_text si url =
      specLine (presentAttrsGen si) (!(presentAttrsGen si).isEmpty && !hasResGen si) url :=
  ⟨extinf_eq_specLine si url, info_to_text_eq_specLine si url⟩

/-! ## Claims C6, C7, C8: manifest resolver -/

/-- `re.search` semantics of the player-config pattern: the match at the
smallest start position wins. -/
theorem searchPlayer_leftmost (cs : List Char) :
    ∀ i u, tryAlts (cs.drop i) = some u → (∀ j < i, tryAlts (cs.drop j) = none) →
      searchPlayer cs = some u := by
  induction cs with
  | nil =>
    intro i u hu _
    rw [List.drop_nil] at hu
    have hnone : tryAlts ([] : List Char) = none := rfl
    rw [hnone] at hu
    exact Option.noConfusion hu
  | cons c cs ih =>
    intro i u hu hprev
    cases i with
    | zero =>
      rw [List.drop_zero] at hu
      simp [searchPlayer, hu]
    | succ i' =>
      have h0 : tryAlts (c :: cs) = none := by
        have := hprev 0 (Nat.succ_pos i')
        rwa [List.drop_zero] at this
      have hu' : tryAlts (cs.drop i') = some u := by
        rwa [List.drop_succ_cons] at hu
      have hprev' : ∀ j < i', tryAlts (cs.drop j) = none := by
        intro j hj
        have := hprev (j + 1) (Nat.succ_lt_succ hj)
        rwa [List.drop_succ_cons] at this
      simp [searchPlayer, h0, ih i' u hu' hprev']

/-- C6 (amended).  When more than one player-configuration sub-form
matches in the page text, the resolver returns the match that starts
*earliest in the text*; the fixed sub-form order (src, file, hls) decides
only between sub-forms matching at the same start position, not globally.
The unamended claim — that the `source`/`src` form beats a textually
earlier `file` or `hls` form — is refuted by the counterexample. -/
theorem claim_C6_amended (text : String) (i : Nat) (u : String)
    (hu : tryAlts (text.data.drop i) = some u)
    (hprev : ∀ j < i, tryAlts (text.data.drop j) = none) :
    find_player_source_url text = some u :=
  searchPlayer_leftmost text.data i u hu hprev

/-- C6 witness: the `hls:` sub-form matching at position 11 (with no match
at any earlier position) is returned. -/
theorem claim_C6_witness : find_player_source_url wtC6 = some "http://c.example/h.m3u8" :=
  claim_C6_amended wtC6 11 "http://c.example/h.m3u8" (by decide) (by decide)

/-- C6 counterexample.  In `cexC6` the highest-priority sub-form
(`source:{src:...}`) matches at position 32, yet the resolver returns the
textually earlier `file:` URL — contradicting "the sub-form with the
highest fixed priority wins regardless of which occurs first textually". -/
theorem claim_C6_counterexample :
    find_player_source_url cexC6 = some "http://a.example/x.m3u8"
    ∧ altSource (cexC6.data.drop 32) = some "http://b.example/y.m3u8"
    ∧ ("http://a.example/x.m3u8" : String) ≠ "http://b.example/y.m3u8" := by decide

/-- C7.  When the outer page has no direct-manifest and no qualifying
player-config match but contains an iframe whose (first-occurrence) `src`
is relative — no scheme, not protocol-relative — the resolver resolves
that `src` against the page URL into an absolute URL under the
scheme-and-host of the page, fetches it, and returns a manifest URL found inside that
iframe text. -/
theorem claim_C7 (fetch : String → Option String) (pageUrl src html html2 m : String)
    (h1 : fetch pageUrl = some html)
    (h2 : find_m3u8_in_text html = none)
    (h3 : playerStep html = none)
    (h4 : find_iframe_src html = some src)
    (h5 : src ≠ "")
    (h6 : hasHttpScheme src = false)
    (h7 : startsWithStr src "//" = false)
    (h8 : fetch (urljoin pageUrl src) = some html2)
    (h9 : find_m3u8_in_text html2 = some m) :
    resolve fetch pageUrl = ResolveOutcome.found m
    ∧ ∃ rest, urljoin pageUrl src = schemeNetloc pageUrl ++ rest := by
  constructor
  · simp [resolve, h1, h2, h3, find_iframe_url, h4, h8, h9]
  · rw [urljoin.eq_def, if_neg h5, if_neg (by simp [h6]), if_neg (by simp [h7])]
    by_cases hsl : startsWithStr src "/" = true
    · rw [if_pos hsl]; exact ⟨_, rfl⟩
    · rw [if_neg hsl]; exact ⟨_, rfl⟩

/-- C7 witness: the relative `embed/player.html` against
`https://example.com/watch` resolves to
`https://example.com/embed/player.html`, and the manifest found only in
the iframe document is returned. -/
theorem claim_C7_witness :
    resolve fetchC7 "https://example.com/watch"
      = ResolveOutcome.found "https://cdn.example.com/live/stream.m3u8"
    ∧ ∃ rest, urljoin "https://example.com/watch" "embed/player.html"
        = schemeNetloc "https://example.com/watch" ++ rest :=
  claim_C7 fetchC7 "https://example.com/watch" "embed/player.html" pageC7 innerC7
    "https://cdn.example.com/live/stream.m3u8"
    (by decide) (by decide) (by decide) (by decide) (by decide) (by decide) (by decide)
    (by decide) (by decide)

/-- C8 (amended).  When the outer page loads but the fetch of the nested
iframe URL fails, `_get_streams` does not catch the exception: the
outcome of the resolver is the propagated fetch error, not `NotFound` as the
unamended claim states (see the counterexample). -/
theorem claim_C8_amended (fetch : String → Option String) (pageUrl html iframeUrl : String)
    (h1 : fetch pageUrl = some html)
    (h2 : find_m3u8_in_text html = none)
    (h3 : playerStep html = none)
    (h4 : find_iframe_url html pageUrl = some iframeUrl)
    (h5 : fetch iframeUrl = none) :
    resolve fetch pageUrl = ResolveOutcome.fetchError := by
  simp [resolve, h1, h2, h3, h4, h5]

/-- C8 witness: outer page with an iframe whose URL the fetch oracle
refuses — the outcome is the propagated fetch error. -/
theorem claim_C8_witness :
    resolve fetchC8 "https://example.com/watch" = ResolveOutcome.fetchError :=
  claim_C8_amended fetchC8 "https://example.com/watch" pageC8 "https://other.example/embed"
    (by decide) (by decide) (by decide) (by decide) (by decide)

/-- C8 counterexample.  On the concrete page/fetch pair the outcome is
`fetchError`, not the `NotFound` the claim demands. -/
theorem claim_C8_counterexample :
    resolve fetchC8 "https://example.com/watch" = ResolveOutcome.fetchError
    ∧ resolve fetchC8 "https://example.com/watch" ≠ ResolveOutcome.notFound := by decide

/-- C4 counterexample.  With bandwidth 500000 and resolution 1920×0,
`info_to_text` emits `RESOLUTION=1920x0` although the height is not
positive, and `stream_info_to_extinf` (which drops RESOLUTION here) leaves
a dangling comma immediately before the newline — both contradicting the
unamended claim. -/
theorem claim_C4_counterexample :
    info_to_text siC4 "u" = "#EXT-X-STREAM-INF:BANDWIDTH=500000,RESOLUTION=1920x0\nu\n"
    ∧ strContains (info_to_text siC4 "u") "RESOLUTION=1920x0" = true
    ∧ stream_info_to_extinf siC4 "u" = "#EXT-X-STREAM-INF:BANDWIDTH=500000,\nu\n"
    ∧ strContains (stream_info_to_extinf siC4 "u") ",\n" = true := by decide

/-! ## Claim C9: batch runner -/

theorem channelCounts_go (step : Channel → ChanOutcome) (l : List Channel) :
    ∀ a b : Nat,
      l.foldl
        (fun sf c =>
          match step c with
          | ChanOutcome.written => (sf.1 + 1, sf.2)
          | _ => (sf.1, sf.2 + 1))
        (a, b)
      = (a + (channelCounts step l).1, b + (channelCounts step l).2) := by
  induction l with
  | nil => intro a b; simp [channelCounts]
  | cons c t ih =>
    intro a b
    have hc : channelCounts step (c :: t) =
        match step c with
        | ChanOutcome.written => (1 + (channelCounts step t).1, (channelCounts step t).2)
        | _ => ((channelCounts step t).1, 1 + (channelCounts step t).2) := by
      cases hstep : step c <;>
        simp [channelCounts, List.foldl_cons, hstep, ih 0 1, ih 1 0]
    cases hstep : step c <;>
      · rw [List.foldl_cons]
        simp only [hstep]
        rw [ih, hc]
        simp only [hstep]
        refine Prod.ext ?_ ?_ <;> simp <;> omega

theorem counts_sum_go (step : Channel → ChanOutcome) (l : List Channel) :
    ∀ a b : Nat,
      (l.foldl
        (fun sf c =>
          match step c with
          | ChanOutcome.written => (sf.1 + 1, sf.2)
          | _ => (sf.1, sf.2 + 1))
        (a, b)).1
      + (l.foldl
          (fun sf c =>
            match step c with
            | ChanOutcome.written => (sf.1 + 1, sf.2)
            | _ => (sf.1, sf.2 + 1))
          (a, b)).2
      = a + b + l.length := by
  induction l with
  | nil => intro a b; simp
  | cons c t ih =>
    intro a b
    cases hstep : step c <;>
      · simp only [List.foldl_cons, hstep, List.length_cons]
        rw [ih]
        omega

/-- C9.  The batch run processes every channel: exactly one of the
`success`/`fail` counters is incremented per channel (so success + fail =
total = the channel count, for every injected per-channel behaviour, i.e.
no failure aborts the rest — counts over a concatenation add up), and the
exit code is 0 iff at least one channel succeeded, with configuration-load
failure exiting non-zero before any channel runs. -/
theorem claim_C9 (step : Channel → ChanOutcome) (channels l1 l2 : List Channel) :
    (channelCounts step channels).1 + (channelCounts step channels).2 = channels.length
    ∧ (mainExitCode (some channels) step = 0 ↔ 0 < (channelCounts step channels).1)
    ∧ mainExitCode none step = 1
    ∧ channelCounts step (l1 ++ l2)
        = ((channelCounts step l1).1 + (channelCounts step l2).1,
           (channelCounts step l1).2 + (channelCounts step l2).2) := by
  refine ⟨?_, ?_, rfl, ?_⟩
  · have hsum := counts_sum_go step channels 0 0
    simpa [channelCounts] using hsum
  · show (if (channelCounts step channels).1 = 0 then 1 else 0) = 0
        ↔ 0 < (channelCounts step channels).1
    by_cases hz : (channelCounts step channels).1 = 0
    · rw [if_pos hz]
      omega
    · rw [if_neg hz]
      omega
  · have h2 := channelCounts_go step l2 (channelCounts step l1).1 (channelCounts step l1).2
    rw [Prod.mk.eta] at h2
    simp only [channelCounts] at h2 ⊢
    rw [List.foldl_append]
    exact h2

/-! ## Claim C10: per-channel session headers -/

theorem lookup_insertOrAssign_self (d : List (String × String)) (k v : String) :
    lookupKey k (insertOrAssign d k v) = some v := by
  induction d with
  | nil => simp [insertOrAssign, lookupKey]
  | cons p t ih =>
    by_cases hp : p.1 = k
    · simp [insertOrAssign, hp, lookupKey]
    · simp [insertOrAssign, hp, lookupKey, ih]

theorem lookup_insertOrAssign_ne (d : List (String × String)) (k k2 v : String)
    (hne : k2 ≠ k) : lookupKey k (insertOrAssign d k2 v) = lookupKey k d := by
  induction d with
  | nil => simp [insertOrAssign, lookupKey, hne]
  | cons p t ih =>
    by_cases hp : p.1 = k2
    · simp [insertOrAssign, hp, lookupKey, hne, Ne.symm hne]
    · simp [insertOrAssign, hp, lookupKey, ih]

theorem lookup_none_of_not_mem (k : String) (l : List (String × String))
    (h : k ∉ l.map Prod.fst) : lookupKey k l = none := by
  induction l with
  | nil => rfl
  | cons p t ih =>
    simp only [List.map_cons, List.mem_cons] at h
    push_neg at h
    have hp : ¬p.1 = k := fun hp => h.1 hp.symm
    simp [lookupKey, hp, ih h.2]

/-- Lookup through `dict.update`: the value from the updating dict wins
key-by-key (for dicts, whose keys are unique). -/
theorem lookup_dictUpdate (kv : List (String × String))
    (hnd : (kv.map Prod.fst).Nodup) :
    ∀ d k, lookupKey k (dictUpdate d kv) =
      match lookupKey k kv with
      | some v => some v
      | none => lookupKey k d := by
  induction kv with
  | nil => intro d k; simp [dictUpdate, lookupKey]
  | cons p t ih =>
    intro d k
    obtain ⟨k1, v1⟩ := p
    simp only [List.map_cons, List.nodup_cons] at hnd
    by_cases hk : k1 = k
    · subst hk
      have ht : lookupKey k1 t = none := lookup_none_of_not_mem k1 t hnd.1
      simp [dictUpdate, lookupKey, ih hnd.2, ht, lookup_insertOrAssign_self]
    · simp [dictUpdate, lookupKey, ih hnd.2, hk,
        lookup_insertOrAssign_ne d k k1 v1 hk]

/-- C10.  The session of each channel is configured with exactly the
default User-Agent Mozilla/5.0 dict overridden key-by-key by the headers
of that channel; the dict configured for channel `i` depends only on the
headers of that channel (two runs whose channel lists agree on the
headers of channel `i` configure identical dicts at position `i`); and a
channel with no headers gets exactly the default. -/
theorem claim_C10 (h : List (String × String)) (k : String)
    (cs1 cs2 : List Channel) (i : Nat) (c1 c2 : Channel)
    (hnd : (h.map Prod.fst).Nodup)
    (h1 : cs1[i]? = some c1) (h2 : cs2[i]? = some c2)
    (hh : c1.headers = c2.headers) :
    lookupKey k (sessionHeaders h) =
      (match lookupKey k h with
       | some v => some v
       | none => lookupKey k defaultHeaders)
    ∧ (headerTrace cs1)[i]? = (headerTrace cs2)[i]?
    ∧ sessionHeaders [] = [("User-Agent", "Mozilla/5.0")] := by
  refine ⟨?_, ?_, rfl⟩
  · unfold sessionHeaders
    cases h with
    | nil => simp [lookupKey]
    | cons p t => simp [lookup_dictUpdate (p :: t) hnd defaultHeaders k]
  · unfold headerTrace
    rw [List.getElem?_map, List.getElem?_map, h1, h2]
    simp [hh]

/-- C10 witness: two runs differing in their first channel but agreeing on
the second; the configured headers of the second channel agree, its custom
User-Agent overrides the default, and a header-less channel gets the
default dict. -/
theorem claim_C10_witness :
    lookupKey "User-Agent" (sessionHeaders chanB.headers) =
      (match lookupKey "User-Agent" chanB.headers with
       | some v => some v
       | none => lookupKey "User-Agent" defaultHeaders)
    ∧ (headerTrace [chanX, chanB])[1]? = (headerTrace [chanY, chanB])[1]?
    ∧ sessionHeaders [] = [("User-Agent", "Mozilla/5.0")] :=
  claim_C10 chanB.headers "User-Agent" [chanX, chanB] [chanY, chanB] 1 chanB chanB
    (by decide) (by decide) (by decide) (by decide)

end PStream
